import Mathlib

/-!
# Spec2Proof: verification of the hercules backend core

Shallow embedding of the core of the `hercules` backend:

* `hercules/backend/app/websocket_manager.py` — the `WebSocketManager` class
  (connection registry + broadcaster),
* `hercules/backend/app/autogen_manager.py` — the conversation relay
  (`message_processing_callback` and the tail of `run_autogen_chat`),
* `hercules/backend/app/supabase_client.py` — the transcript-store append
  (`store_ai_message_in_supabase`).

Python dicts whose values are only read/compared are embedded as association
lists `List (String × String)` (first binding of a key wins, as for a dict in
which each key is set once).  External I/O (websocket sends, database inserts)
is embedded by passing outcome functions explicitly, and side effects are
reified as an ordered `Effect` trace.
-/

namespace Hercules

/-- A live websocket connection handle.  Identity is all the registry uses. -/
abbrev Conn := Nat

/-- A JSON-style dict with string keys and (stringly embedded) values. -/
abbrev Msg := List (String × String)

/-- First value bound to key `k`, like Python `d[k]` / `d.get(k)` on a dict. -/
def getValue? (m : Msg) (k : String) : Option String :=
  (m.find? (fun p => p.1 = k)).map (fun p => p.2)

/-- Python `d.get(k, dflt)`. -/
def getValueD (m : Msg) (k dflt : String) : String :=
  (getValue? m k).getD dflt

/-- Python `k in d` (membership test on a dict; does not insert). -/
def hasKey (m : Msg) (k : String) : Bool :=
  m.any (fun p => p.1 = k)

/-- The ASCII whitespace characters Python's `str.strip()` removes (the
contents relevant here are ASCII). -/
def pyIsSpace (c : Char) : Bool :=
  c = ' ' || c = '\t' || c = '\n' || c = '\r' || c = '\x0b' || c = '\x0c'

/-- Python `s.strip()`: drop leading and trailing whitespace. -/
def pyStrip (s : String) : String :=
  ⟨(s.data.dropWhile pyIsSpace).reverse.dropWhile pyIsSpace |>.reverse⟩

/-- Python `str.upper()` on one character (ASCII range). -/
def pyUpperChar (c : Char) : Char :=
  if 97 ≤ c.toNat ∧ c.toNat ≤ 122 then Char.ofNat (c.toNat - 32) else c

/-- Python `s.upper()`. -/
def pyUpper (s : String) : String :=
  ⟨s.data.map pyUpperChar⟩

/-!
## WebSocketManager — `hercules/backend/app/websocket_manager.py`

`self.active_connections : DefaultDict[str, List[WebSocket]]` is embedded as an
association list from room id to the room's list of connections, in insertion
order.  `defaultdict(list)` semantics matter: *subscripting* a missing key
(`self.active_connections[room_id]`) inserts an empty list for it, while the
membership test `room_id in self.active_connections` does not.
-/

/-- The registry state: `active_connections`, room id ↦ live connection list. -/
abbrev Registry := List (String × List Conn)

/-- Room lookup without the defaultdict side effect (used to embed
`room_id in self.active_connections` followed by a read). -/
def roomList? (reg : Registry) (room_id : String) : Option (List Conn) :=
  (reg.find? (fun p => p.1 = room_id)).map (fun p => p.2)

/-- `defaultdict.__getitem__`: return the room's list, inserting `[]` for a
missing key (the insertion is the returned registry). -/
def dictGetItem (reg : Registry) (room_id : String) : List Conn × Registry :=
  match roomList? reg room_id with
  | some l => (l, reg)
  | none => ([], reg ++ [(room_id, [])])

/-- `del self.active_connections[room_id]`. -/
def delKey (reg : Registry) (room_id : String) : Registry :=
  reg.filter (fun p => ¬ p.1 = room_id)

/-- Re-binding a present key to a new list (the in-place `list.remove` seen
through the dict). -/
def setKey (reg : Registry) (room_id : String) (l : List Conn) : Registry :=
  reg.map (fun p => if p.1 = room_id then (room_id, l) else p)

/-- The live-connection view of a room: its list, with a missing entry read as
the empty list.  (Observation only — no defaultdict insertion.) -/
def liveList (reg : Registry) (room_id : String) : List Conn :=
  (roomList? reg room_id).getD []

/-- `WebSocketManager.connect` (after the external `accept`):
`self.active_connections[room_id].append(websocket)`. -/
def connect (reg : Registry) (websocket : Conn) (room_id : String) : Registry :=
  let (l, reg1) := dictGetItem reg room_id
  match roomList? reg1 room_id with
  | some _ => setKey reg1 room_id (l ++ [websocket])
  | none => reg1 ++ [(room_id, [websocket])]

/-- `WebSocketManager.disconnect`:

```python
if websocket in self.active_connections[room_id]:
    self.active_connections[room_id].remove(websocket)
    if not self.active_connections[room_id]:
        del self.active_connections[room_id]
```

The subscript on the first line is a defaultdict access: a missing `room_id`
gains an empty entry before the (then failing) membership test.
`list.remove` drops the first occurrence, as `List.erase` does. -/
def disconnect (reg : Registry) (websocket : Conn) (room_id : String) : Registry :=
  let p := dictGetItem reg room_id
  if websocket ∈ p.1 then
    let l2 := p.1.erase websocket
    if l2.isEmpty then delKey p.2 room_id else setKey p.2 room_id l2
  else p.2

/-- `WebSocketManager.send_personal_message`: one `send_text` attempt in a
`try/except` whose handler only prints.  The Python function body has no
`return`, so the caller receives `None` whether the send failed or not; the
middle component below is that returned value (always `none` — there is no
failure-signal slot the code ever fills).  The last component lists the
successful deliveries; the registry is threaded through untouched because the
method never names `self.active_connections`. -/
def send_personal_message (reg : Registry) (message : Msg) (websocket : Conn)
    (sendFails : Conn → Bool) : Registry × Option Msg × List (Conn × Msg) :=
  if sendFails websocket then (reg, none, []) else (reg, none, [(websocket, message)])

/-- The dict actually serialized by `broadcast_to_room`:
`message_with_timestamp = message.copy()`, then a timestamp is added only when
the copy has no `"timestamp"` key. -/
def messageWithTimestamp (message : Msg) (now : String) : Msg :=
  if hasKey message "timestamp" then message else message ++ [("timestamp", now)]

/-- Result of one `broadcast_to_room` call. `callerMessage` is the caller's
`message` dict as it stands after the call (the source mutates only the copy,
so the embedding returns the argument itself; an in-place stamping would have
returned the stamped dict here). `delivered` lists the successful sends in
loop order, each with the dict that was serialized for it. -/
structure BroadcastResult where
  registry : Registry
  callerMessage : Msg
  delivered : List (Conn × Msg)
  deriving Repr, DecidableEq

/-- `WebSocketManager.broadcast_to_room`: stamp a copy, then

```python
if room_id in self.active_connections:
    for connection in self.active_connections[room_id]:
        try: await connection.send_text(json.dumps(message_with_timestamp))
        except Exception: disconnected_sockets.append(connection)
    for sock in disconnected_sockets:
        self.disconnect(sock, room_id)
```

`sendFails` gives each connection's send outcome; every failing connection is
collected and then removed through `disconnect`, in list order. -/
def broadcast_to_room (reg : Registry) (room_id : String) (message : Msg)
    (now : String) (sendFails : Conn → Bool) : BroadcastResult :=
  let mts := messageWithTimestamp message now
  match roomList? reg room_id with
  | none => ⟨reg, message, []⟩
  | some conns =>
      let delivered := (conns.filter (fun c => ¬ sendFails c)).map (fun c => (c, mts))
      let disconnected := conns.filter (fun c => sendFails c)
      let reg2 := disconnected.foldl (fun r s => disconnect r s room_id) reg
      ⟨reg2, message, delivered⟩

/-!
## Transcript store — `hercules/backend/app/supabase_client.py`

`store_ai_message_in_supabase` validates the record, then inserts it into the
`ai_messages` table.  The embedding assumes the module-level admin client is
initialized (the raising `get_supabase_admin_client()` guard is an
environmental precondition, not message-dependent logic), and abstracts the
network insert as an outcome function.
-/

/-- An error dict as returned by the supabase wrapper functions; only the
`message` and `status_code` entries are ever written by
`store_ai_message_in_supabase`. -/
structure ErrDict where
  message : String
  status_code : Option Nat
  deriving Repr, DecidableEq

/-- Outcome of `client.table("ai_messages").insert(...).execute()`:
either `response.data` (a row list), or one of the caught exception kinds. -/
inductive InsertOutcome where
  | ok (rows : List Msg)
  | pgApiError (message : String) (status_code : Option Nat)
  | clientError (message : String) (status_code : Option Nat)
  | otherError
  deriving Repr, DecidableEq

/-- Python truthiness test `field in message_data and message_data[field]`
for a string-valued field (the empty string is falsy). -/
def fieldTruthy (m : Msg) (k : String) : Bool :=
  match getValue? m k with
  | some v => ¬ v = ""
  | none => false

/-- `store_ai_message_in_supabase`.  The validation loop

```python
for field in ["room_id", "agent_name", "content"]:
    if field not in message_data or not message_data[field]:
        return None, {"message": f"Missing required field ...: {field}", "status_code": 400}
```

returns at the first offending field, before any insert; otherwise the record
is inserted and the `(data, error)` pair is built from the response.  The
second component of the result collects the records actually handed to
`insert` (empty when validation fails). -/
def store_ai_message_in_supabase (message_data : Msg)
    (ins : Msg → InsertOutcome) : (Option Msg × Option ErrDict) × List Msg :=
  match ["room_id", "agent_name", "content"].find? (fun f => ¬ fieldTruthy message_data f) with
  | some f =>
      ((none, some ⟨"Missing required field for AI message: " ++ f, some 400⟩), [])
  | none =>
      match ins message_data with
      | .ok rows =>
          match rows with
          | r :: _ => ((some r, none), [message_data])
          | [] =>
              ((none, some ⟨"AI message stored but no confirmation data returned.", some 200⟩),
               [message_data])
      | .pgApiError m sc => ((none, some ⟨m, sc⟩), [message_data])
      | .clientError m sc => ((none, some ⟨m, sc⟩), [message_data])
      | .otherError =>
          ((none, some ⟨"An unexpected error occurred while storing AI message.", some 500⟩),
           [message_data])

/-!
## ConversationRelay — `hercules/backend/app/autogen_manager.py`

`message_processing_callback` observes each runtime message, broadcasts and
persists it according to its classification, and returns `False` to the
runtime.  Its side effects are reified as an ordered trace.
-/

/-- One observable side effect of the relay, in program order. -/
inductive Effect where
  /-- one `websocket_manager.broadcast_to_room(room_id, msg)` call -/
  | broadcast (room_id : String) (msg : Msg)
  /-- one transcript append attempt, `store_ai_message_in_supabase(record)` -/
  | store (record : Msg)
  /-- one record appended to the room's `agent_log.json` -/
  | logAppend (room_id : String) (entry : Msg)
  deriving Repr, DecidableEq

/-- The `sender` agent as the callback sees it: `sender.name` when the
attribute exists, and `sender.llm_config` when present and truthy, itself a
dict whose `"config_list"` entry (if any) is a list of config dicts. -/
structure Sender where
  name : Option String
  config_list : Option (Option (List Msg))
  deriving Repr

/-- The `message_dict` argument: a dict, or any other value seen through
`str(message_dict)`. -/
inductive MessageDict where
  | dict (m : Msg)
  | other (s : String)
  deriving Repr, DecidableEq

/-- `content_to_process = message_dict.get("content") if isinstance(message_dict, dict) else str(message_dict)`.
A dict without a `"content"` key yields Python `None`, embedded as `none`. -/
def content_to_process (md : MessageDict) : Option String :=
  match md with
  | .dict m => getValue? m "content"
  | .other s => some s

/-- `agent_name = sender.name if hasattr(sender, 'name') else "UnknownAgent"`. -/
def agent_name_of (sender : Sender) : String :=
  sender.name.getD "UnknownAgent"

/-- The guard of both ordinary-message branches:
`content_to_process and content_to_process.strip() and content_to_process.strip().upper() != "TERMINATE"`. -/
def isOrdinaryContent (c : Option String) : Bool :=
  match c with
  | none => false
  | some s => ¬ s = "" && ¬ pyStrip s = "" && ¬ pyUpper (pyStrip s) = "TERMINATE"

/-- The guard of the termination branch:
`content_to_process and content_to_process.strip().upper() == "TERMINATE"`. -/
def isTerminateContent (c : Option String) : Bool :=
  match c with
  | none => false
  | some s => ¬ s = "" && pyUpper (pyStrip s) = "TERMINATE"

/-- The `message_to_store` record an ordinary message is persisted as:
`{room_id, agent_name, content}`, plus `model_used` from the sender's first
LLM config entry when one exists, plus `tool_calls` when the message dict
carries a truthy one. -/
def message_to_store (room_id : String) (sender : Sender) (md : MessageDict) : Msg :=
  let base := [("room_id", room_id), ("agent_name", agent_name_of sender),
               ("content", (content_to_process md).getD "")]
  let withModel :=
    match sender.config_list with
    | some (some (entry :: _)) => base ++ [("model_used", getValueD entry "model" "unknown")]
    | _ => base
  match md with
  | .dict m =>
      match getValue? m "tool_calls" with
      | some tc => if ¬ tc = "" then withModel ++ [("tool_calls", tc)] else withModel
      | none => withModel
  | .other _ => withModel

/-- `message_processing_callback(sender, recipient, message_dict)`: classify
the content, broadcast, persist, report persistence failure, `return False`.
`storeErr rec` is the `db_error` component of `store_ai_message_in_supabase`
for the record `rec` (so `none` means the append succeeded).  The effect
trace follows the source order: the room broadcast (ordinary or termination)
happens first, then the store attempt, then — only on a store error — the
`System` error broadcast. -/
def message_processing_callback (room_id : String) (sender : Sender)
    (md : MessageDict) (storeErr : Msg → Option ErrDict) : List Effect × Bool :=
  let c := content_to_process md
  let agent_name := agent_name_of sender
  let broadcastEffects :=
    if isOrdinaryContent c then
      [Effect.broadcast room_id [("agent", agent_name), ("message", c.getD "")]]
    else if isTerminateContent c then
      [Effect.broadcast room_id
        [("agent", agent_name), ("event", "TERMINATE"),
         ("message", agent_name ++ " has finished.")]]
    else []
  let storeEffects :=
    if isOrdinaryContent c then
      let record := message_to_store room_id sender md
      match storeErr record with
      | some _ =>
          [Effect.store record,
           Effect.broadcast room_id
             [("agent", "System"),
              ("error", "Failed to store message from " ++ agent_name ++ " to database.")]]
      | none => [Effect.store record]
    else []
  (broadcastEffects ++ storeEffects, false)

/-!
## Session tail — the end of `run_autogen_chat`

After the initial prompt has been persisted and broadcast, `run_autogen_chat`
runs the agent runtime inside a `try`.  The embedding abstracts the runtime
(`a_initiate_chat` plus the recorded `chat_messages` history) as a
`ChatOutcome` and models everything the function does from there on: the
history scan for the first substantive assistant reply, the `except` handler,
and the completion-log append.
-/

/-- One entry of `user_proxy.chat_messages.get(assistant, [])`: its `"role"`
and `"content"` values (a missing or non-string content is `none`). -/
structure HistMsg where
  role : String
  content : Option String
  deriving Repr, DecidableEq

/-- How the `try` block around `a_initiate_chat` ends: the runtime completes
and leaves a turn history, or raises with message `e`. -/
inductive ChatOutcome where
  | ok (history : List HistMsg)
  | raised (e : String)
  deriving Repr, DecidableEq

/-- The history scan of `run_autogen_chat`:

```python
for msg_dict in chat_result_history:
    if msg_dict.get("role") == "assistant" and msg_dict.get("content"):
        processed_content = msg_dict.get("content").strip()
        if processed_content and not processed_content.upper() == "TERMINATE":
            first_assistant_response_content = processed_content
            break
```

Returns the first hit (note: the *stripped* content), else `none`. -/
def firstAssistantResponse : List HistMsg → Option String
  | [] => none
  | m :: rest =>
      if m.role = "assistant" then
        match m.content with
        | some c =>
            if ¬ c = "" then
              let processed_content := pyStrip c
              if ¬ processed_content = "" && ¬ pyUpper processed_content = "TERMINATE" then
                some processed_content
              else firstAssistantResponse rest
            else firstAssistantResponse rest
        | none => firstAssistantResponse rest
      else firstAssistantResponse rest

/-- Python `x if x else dflt` for an optional string (both `None` and the
empty string are falsy). -/
def pyStringOrElse (x : Option String) (dflt : String) : String :=
  match x with
  | some s => if ¬ s = "" then s else dflt
  | none => dflt

/-- The tail of `run_autogen_chat` (everything from `a_initiate_chat` on),
as a pair of the function's return value and the trace of side effects it
performs.  On a normal completion the history is scanned and exactly one
completion record is appended to `agent_log.json`; on a raised exception the
`except` handler broadcasts and persists an `autogen_error` record and then
`return None` exits the function before the log-append block is reached. -/
def run_autogen_chat_tail (user_prompt room_id now : String)
    (outcome : ChatOutcome) : Option String × List Effect :=
  match outcome with
  | .raised e =>
      let error_message_content := "Autogen Error: " ++ e
      (none,
       [Effect.broadcast room_id
          [("agent", "System"), ("error", error_message_content),
           ("message_type", "autogen_error")],
        Effect.store
          [("room_id", room_id), ("agent_name", "System"),
           ("content", error_message_content), ("custom_type", "autogen_error")]])
  | .ok history =>
      let first_assistant_response_content := firstAssistantResponse history
      let log_entry : Msg :=
        [("timestamp", now),
         ("event", "Autogen chat session processing complete."),
         ("prompt", user_prompt),
         ("first_assistant_response_captured_for_log_file",
          pyStringOrElse first_assistant_response_content
            "No specific initial response captured / only TERMINATE.")]
      (first_assistant_response_content, [Effect.logAppend room_id log_entry])

/-- Number of completion records a trace appends to a room's log file. -/
def countLogAppends (effects : List Effect) : Nat :=
  effects.countP (fun eff => match eff with | .logAppend _ _ => true | _ => false)

/-- Number of transcript append attempts in a trace. -/
def countStores (effects : List Effect) : Nat :=
  effects.countP (fun eff => match eff with | .store _ => true | _ => false)

/-!
## Registry lemmas
-/

/-- Lookup at a cons whose key matches. -/
theorem roomList?_cons_eq (p : String × List Conn) (tl : Registry) (r : String)
    (h : p.1 = r) : roomList? (p :: tl) r = some p.2 := by
  simp [roomList?, List.find?, h]

/-- Lookup at a cons whose key does not match. -/
theorem roomList?_cons_ne (p : String × List Conn) (tl : Registry) (r : String)
    (h : ¬ p.1 = r) : roomList? (p :: tl) r = roomList? tl r := by
  simp [roomList?, List.find?, h]

/-- Live-connection view at a cons whose key matches. -/
theorem liveList_cons_eq (p : String × List Conn) (tl : Registry) (r : String)
    (h : p.1 = r) : liveList (p :: tl) r = p.2 := by
  simp [liveList, roomList?_cons_eq p tl r h]

/-- Live-connection view at a cons whose key does not match. -/
theorem liveList_cons_ne (p : String × List Conn) (tl : Registry) (r : String)
    (h : ¬ p.1 = r) : liveList (p :: tl) r = liveList tl r := by
  simp [liveList, roomList?_cons_ne p tl r h]

/-- Deletion drops a matching head. -/
theorem delKey_cons_eq (p : String × List Conn) (tl : Registry) (room : String)
    (h : p.1 = room) : delKey (p :: tl) room = delKey tl room := by
  simp [delKey, List.filter, h]

/-- Deletion keeps a non-matching head. -/
theorem delKey_cons_ne (p : String × List Conn) (tl : Registry) (room : String)
    (h : ¬ p.1 = room) : delKey (p :: tl) room = p :: delKey tl room := by
  simp [delKey, List.filter, h]

/-- Re-binding replaces a matching head. -/
theorem setKey_cons_eq (p : String × List Conn) (tl : Registry) (room : String)
    (l : List Conn) (h : p.1 = room) :
    setKey (p :: tl) room l = (room, l) :: setKey tl room l := by
  simp [setKey, h]

/-- Re-binding keeps a non-matching head. -/
theorem setKey_cons_ne (p : String × List Conn) (tl : Registry) (room : String)
    (l : List Conn) (h : ¬ p.1 = room) :
    setKey (p :: tl) room l = p :: setKey tl room l := by
  simp [setKey, h]

/-- Appending a fresh empty-list binding (the defaultdict side effect) does
not change any room's live-connection view. -/
theorem liveList_append_empty (reg : Registry) (room r : String) :
    liveList (reg ++ [(room, [])]) r = liveList reg r := by
  induction reg with
  | nil => by_cases h : room = r <;> simp [liveList, roomList?, List.find?, h]
  | cons p tl ih =>
      rw [List.cons_append]
      by_cases h : p.1 = r
      · rw [liveList_cons_eq p _ r h, liveList_cons_eq p tl r h]
      · rw [liveList_cons_ne p _ r h, liveList_cons_ne p tl r h]; exact ih

/-- Deleting a room's binding removes it from lookup. -/
theorem roomList?_delKey_self (reg : Registry) (room : String) :
    roomList? (delKey reg room) room = none := by
  induction reg with
  | nil => simp [delKey, roomList?]
  | cons p tl ih =>
      by_cases h : p.1 = room
      · rw [delKey_cons_eq p tl room h]; exact ih
      · rw [delKey_cons_ne p tl room h, roomList?_cons_ne p (delKey tl room) room h]; exact ih

/-- Deleting one room's binding leaves other rooms' lookups unchanged. -/
theorem roomList?_delKey_other (reg : Registry) (room r : String) (h : ¬ r = room) :
    roomList? (delKey reg room) r = roomList? reg r := by
  induction reg with
  | nil => simp [delKey]
  | cons p tl ih =>
      by_cases hp : p.1 = room
      · have hpr : ¬ p.1 = r := by rw [hp]; exact fun e => h e.symm
        rw [delKey_cons_eq p tl room hp, roomList?_cons_ne p tl r hpr]; exact ih
      · by_cases hr : p.1 = r
        · rw [delKey_cons_ne p tl room hp, roomList?_cons_eq p (delKey tl room) r hr,
              roomList?_cons_eq p tl r hr]
        · rw [delKey_cons_ne p tl room hp, roomList?_cons_ne p (delKey tl room) r hr,
              roomList?_cons_ne p tl r hr]; exact ih

/-- Re-binding a present room makes lookup return the new list. -/
theorem roomList?_setKey_self (reg : Registry) (room : String) (l : List Conn)
    (h : (roomList? reg room).isSome) :
    roomList? (setKey reg room l) room = some l := by
  induction reg with
  | nil => simp [roomList?] at h
  | cons p tl ih =>
      by_cases hp : p.1 = room
      · rw [setKey_cons_eq p tl room l hp, roomList?_cons_eq (room, l) (setKey tl room l) room rfl]
      · have htl : (roomList? tl room).isSome := by
          rw [roomList?_cons_ne p tl room hp] at h; exact h
        rw [setKey_cons_ne p tl room l hp, roomList?_cons_ne p (setKey tl room l) room hp]
        exact ih htl

/-- Re-binding one room leaves other rooms' lookups unchanged. -/
theorem roomList?_setKey_other (reg : Registry) (room r : String) (l : List Conn)
    (h : ¬ r = room) :
    roomList? (setKey reg room l) r = roomList? reg r := by
  induction reg with
  | nil => simp [setKey]
  | cons p tl ih =>
      by_cases hp : p.1 = room
      · have hrr : ¬ ((room, l) : String × List Conn).1 = r := fun e => h e.symm
        have hpr : ¬ p.1 = r := by rw [hp]; exact fun e => h e.symm
        rw [setKey_cons_eq p tl room l hp, roomList?_cons_ne (room, l) (setKey tl room l) r hrr,
            roomList?_cons_ne p tl r hpr]
        exact ih
      · by_cases hr : p.1 = r
        · rw [setKey_cons_ne p tl room l hp, roomList?_cons_eq p (setKey tl room l) r hr,
              roomList?_cons_eq p tl r hr]
        · rw [setKey_cons_ne p tl room l hp, roomList?_cons_ne p (setKey tl room l) r hr,
              roomList?_cons_ne p tl r hr]; exact ih

/-- Disconnecting from a room with no registry entry returns the registry
with the defaultdict-created empty entry appended. -/
theorem disconnect_no_entry (reg : Registry) (ws : Conn) (room : String)
    (h : roomList? reg room = none) :
    disconnect reg ws room = reg ++ [(room, [])] := by
  simp [disconnect, dictGetItem, h]

/-- Disconnecting a connection that is not in the (present) room's list
returns the registry unchanged. -/
theorem disconnect_not_mem (reg : Registry) (ws : Conn) (room : String)
    (l : List Conn) (h : roomList? reg room = some l) (hm : ws ∉ l) :
    disconnect reg ws room = reg := by
  simp [disconnect, dictGetItem, h, hm]

/-- Disconnecting a connection absent from a room's live view changes no
room's live-connection view (though it may add an empty registry entry). -/
theorem disconnect_absent_liveList (reg : Registry) (ws : Conn) (room : String)
    (habs : ws ∉ liveList reg room) (r : String) :
    liveList (disconnect reg ws room) r = liveList reg r := by
  cases h : roomList? reg room with
  | none => rw [disconnect_no_entry reg ws room h]; exact liveList_append_empty reg room r
  | some l =>
      have hm : ws ∉ l := by simpa [liveList, h] using habs
      rw [disconnect_not_mem reg ws room l h hm]

/-- After disconnecting a connection that occurred at most once in the room's
live list, it no longer occurs there. -/
theorem disconnect_removes (reg : Registry) (ws : Conn) (room : String)
    (hcount : (liveList reg room).count ws ≤ 1) :
    ws ∉ liveList (disconnect reg ws room) room := by
  cases h : roomList? reg room with
  | none =>
      rw [disconnect_no_entry reg ws room h, liveList_append_empty]
      simp [liveList, h]
  | some l =>
      by_cases hm : ws ∈ l
      · have hsome : (roomList? reg room).isSome := by simp [h]
        have hcl : l.count ws ≤ 1 := by simpa [liveList, h] using hcount
        have hzero : (l.erase ws).count ws = 0 := by
          have := List.count_erase_self ws l
          omega
        have hnot : ws ∉ l.erase ws := List.count_eq_zero.mp hzero
        by_cases he : (l.erase ws).isEmpty
        · have : disconnect reg ws room = delKey reg room := by
            simp [disconnect, dictGetItem, h, hm, he]
          rw [this]
          simp [liveList, roomList?_delKey_self]
        · have : disconnect reg ws room = setKey reg room (l.erase ws) := by
            simp [disconnect, dictGetItem, h, hm, he]
          rw [this]
          simpa [liveList, roomList?_setKey_self reg room (l.erase ws) hsome] using hnot
      · rw [disconnect_not_mem reg ws room l h hm]
        simpa [liveList, h] using hm

/-!
## Claims about the WebSocketManager
-/

/-- C6 (counterexample): disconnecting from a room with no registry entry
does NOT leave the full mapping unchanged — the defaultdict access in
`disconnect` creates an empty-list entry for the queried room id. -/
theorem C6_counterexample :
    disconnect ([] : Registry) 0 "r" = [("r", [])]
    ∧ disconnect ([] : Registry) 0 "r" ≠ ([] : Registry) := by decide

/-- C6 (amended): disconnect is never an error and is idempotent on the
live-connection view: disconnecting a connection absent from a room's live
list changes no room's live list (the full mapping may still gain an
empty-list entry for the queried room, per the counterexample), and — when
the connection occurs at most once in the room's list, per the data model's
one-room-per-connection invariant — disconnecting a second time changes no
room's live list either. -/
theorem C6_disconnect_idempotent_on_live_views (reg : Registry) (ws : Conn) (room : String) :
    (ws ∉ liveList reg room →
      ∀ r, liveList (disconnect reg ws room) r = liveList reg r)
    ∧ ((liveList reg room).count ws ≤ 1 →
      ∀ r, liveList (disconnect (disconnect reg ws room) ws room) r
            = liveList (disconnect reg ws room) r) := by
  constructor
  · intro habs r
    exact disconnect_absent_liveList reg ws room habs r
  · intro hcount r
    exact disconnect_absent_liveList _ ws room (disconnect_removes reg ws room hcount) r

/-- C6 witness: both parts of the amended theorem at a concrete registry. -/
theorem C6_disconnect_idempotent_witness :
    liveList (disconnect [("r", [1, 2])] 0 "r") "r" = liveList [("r", [1, 2])] "r"
    ∧ liveList (disconnect (disconnect [("r", [1, 2])] 1 "r") 1 "r") "q"
        = liveList (disconnect [("r", [1, 2])] 1 "r") "q" :=
  ⟨(C6_disconnect_idempotent_on_live_views [("r", [1, 2])] 0 "r").1 (by decide) "r",
   (C6_disconnect_idempotent_on_live_views [("r", [1, 2])] 1 "r").2 (by decide) "q"⟩

/-- C8: a disconnect that removes the last remaining connection of a room
deletes the room's registry entry entirely. -/
theorem C8_last_disconnect_removes_room_entry (reg : Registry) (ws : Conn) (room : String)
    (h : roomList? reg room = some [ws]) :
    roomList? (disconnect reg ws room) room = none := by
  have hd : disconnect reg ws room = delKey reg room := by
    simp [disconnect, dictGetItem, h]
  rw [hd]
  exact roomList?_delKey_self reg room

/-- C8 witness: emptying room `"r"` of its one connection removes its entry. -/
theorem C8_last_disconnect_witness :
    roomList? [("r", [7]), ("q", [1])] "r" = some [7]
    ∧ roomList? (disconnect [("r", [7]), ("q", [1])] 7 "r") "r" = none :=
  ⟨by decide, C8_last_disconnect_removes_room_entry [("r", [7]), ("q", [1])] 7 "r" (by decide)⟩

/-- C4: broadcasting to a room holding exactly `[c1, c2, c3]` where only
`c2`'s send fails delivers the stamped message exactly once to `c1` and once
to `c3`, and afterwards `c2` is gone from the room's live list while `c1`
and `c3` remain. -/
theorem C4_broadcast_self_heals (reg : Registry) (room : String) (m : Msg) (now : String)
    (sendFails : Conn → Bool) (c1 c2 c3 : Conn)
    (hroom : roomList? reg room = some [c1, c2, c3])
    (h1 : sendFails c1 = false) (h2 : sendFails c2 = true) (h3 : sendFails c3 = false)
    (h12 : ¬ c1 = c2) (h23 : ¬ c2 = c3) :
    (broadcast_to_room reg room m now sendFails).delivered
        = [(c1, messageWithTimestamp m now), (c3, messageWithTimestamp m now)]
    ∧ liveList (broadcast_to_room reg room m now sendFails).registry room = [c1, c3]
    ∧ c2 ∉ liveList (broadcast_to_room reg room m now sendFails).registry room := by
  have hsome : (roomList? reg room).isSome := by rw [hroom]; rfl
  have herase : ([c1, c2, c3] : List Conn).erase c2 = [c1, c3] := by
    rw [List.erase_cons]
    simp [h12]
  have hdisc : disconnect reg c2 room = setKey reg room [c1, c3] := by
    simp [disconnect, dictGetItem, hroom, herase]
  have hfold : (broadcast_to_room reg room m now sendFails).registry
      = setKey reg room [c1, c3] := by
    simp [broadcast_to_room, hroom, List.filter, h1, h2, h3, hdisc]
  have hlive : liveList (broadcast_to_room reg room m now sendFails).registry room
      = [c1, c3] := by
    rw [hfold]
    simp [liveList, roomList?_setKey_self reg room [c1, c3] hsome]
  refine ⟨?_, hlive, ?_⟩
  · simp [broadcast_to_room, hroom, List.filter, h1, h2, h3]
  · rw [hlive]
    simp only [List.mem_cons, List.not_mem_nil, or_false]
    exact fun hc => hc.elim (fun e => h12 e.symm) h23

/-- C4 witness: the three-connection scenario at a concrete registry. -/
theorem C4_broadcast_self_heals_witness :
    (broadcast_to_room [("r", [1, 2, 3])] "r" [("agent", "A")] "T" (fun c => c == 2)).delivered
        = [(1, messageWithTimestamp [("agent", "A")] "T"),
           (3, messageWithTimestamp [("agent", "A")] "T")]
    ∧ liveList (broadcast_to_room [("r", [1, 2, 3])] "r" [("agent", "A")] "T"
        (fun c => c == 2)).registry "r" = [1, 3]
    ∧ 2 ∉ liveList (broadcast_to_room [("r", [1, 2, 3])] "r" [("agent", "A")] "T"
        (fun c => c == 2)).registry "r" :=
  C4_broadcast_self_heals [("r", [1, 2, 3])] "r" [("agent", "A")] "T" (fun c => c == 2)
    1 2 3 (by decide) (by decide) (by decide) (by decide) (by decide) (by decide)

/-- C7 (counterexample): when the single send fails, `send_personal_message`
returns Python `None` — exactly what it returns on success — so no failure
signal reaches the caller. -/
theorem C7_counterexample :
    (send_personal_message [] [("agent", "A")] 0 (fun _ => true)).2.1 = none
    ∧ (send_personal_message [] [("agent", "A")] 0 (fun _ => true)).2.1
        = (send_personal_message [] [("agent", "A")] 0 (fun _ => false)).2.1 := by decide

/-- C7 (amended): `send_personal_message` never mutates the registry, and in
every case — send failure included, whose exception is caught and only
printed — it returns `None` to its caller rather than a failure signal. -/
theorem C7_send_personal_message_no_signal (reg : Registry) (message : Msg)
    (ws : Conn) (sendFails : Conn → Bool) :
    (send_personal_message reg message ws sendFails).1 = reg
    ∧ (send_personal_message reg message ws sendFails).2.1 = none := by
  unfold send_personal_message
  by_cases h : sendFails ws <;> simp [h]

/-- C10: `broadcast_to_room` stamps the timestamp onto a copy, so the
caller's message dict is unchanged by the call; every delivery carries the
stamped copy, and when the message already has a `"timestamp"` key the
stamped copy is the message itself. -/
theorem C10_broadcast_does_not_mutate_message (reg : Registry) (room : String)
    (m : Msg) (now : String) (sendFails : Conn → Bool) :
    (broadcast_to_room reg room m now sendFails).callerMessage = m
    ∧ (∀ d ∈ (broadcast_to_room reg room m now sendFails).delivered,
        d.2 = messageWithTimestamp m now)
    ∧ (hasKey m "timestamp" = true → messageWithTimestamp m now = m) := by
  refine ⟨?_, ?_, ?_⟩
  · unfold broadcast_to_room
    cases h : roomList? reg room <;> simp [h]
  · unfold broadcast_to_room
    cases h : roomList? reg room with
    | none => simp [h]
    | some conns =>
        intro d hd
        simp only [h] at hd
        rcases List.mem_map.mp hd with ⟨c, _, rfl⟩
        rfl
  · intro h
    simp [messageWithTimestamp, h]

/-- C10 witness: concrete broadcast of a message already carrying a
timestamp. -/
theorem C10_broadcast_does_not_mutate_witness :
    (broadcast_to_room [("r", [1])] "r" [("timestamp", "t0")] "T"
        (fun _ => false)).callerMessage = [("timestamp", "t0")]
    ∧ (1, messageWithTimestamp [("timestamp", "t0")] "T").2
        = messageWithTimestamp [("timestamp", "t0")] "T"
    ∧ messageWithTimestamp [("timestamp", "t0")] "T" = [("timestamp", "t0")] :=
  ⟨(C10_broadcast_does_not_mutate_message [("r", [1])] "r" [("timestamp", "t0")] "T"
      (fun _ => false)).1,
   (C10_broadcast_does_not_mutate_message [("r", [1])] "r" [("timestamp", "t0")] "T"
      (fun _ => false)).2.1 (1, messageWithTimestamp [("timestamp", "t0")] "T") (by decide),
   (C10_broadcast_does_not_mutate_message [("r", [1])] "r" [("timestamp", "t0")] "T"
      (fun _ => false)).2.2 (by decide)⟩

/-!
## Claims about the ConversationRelay callback
-/

/-- A string with a non-empty strip is non-empty. -/
theorem ne_empty_of_pyStrip_ne (s : String) (h : ¬ pyStrip s = "") : ¬ s = "" :=
  fun e => h (by rw [e]; rfl)

/-- A string whose stripped uppercase is the sentinel is non-empty. -/
theorem ne_empty_of_terminate (s : String) (h : pyUpper (pyStrip s) = "TERMINATE") :
    ¬ s = "" := by
  intro e
  rw [e] at h
  exact absurd h (by decide)

/-- C1: classification in `message_processing_callback`.  Content whose
trimmed, case-normalized form is exactly the sentinel produces only the
termination broadcast (never a transcript append); trimmed non-empty
non-sentinel content is broadcast and persisted (with the error notice
appended exactly when the store reports an error); trimmed-empty content
produces no effect at all. -/
theorem C1_termination_classification (room_id : String) (sender : Sender)
    (md : MessageDict) (storeErr : Msg → Option ErrDict) (s : String)
    (hc : content_to_process md = some s) :
    (pyUpper (pyStrip s) = "TERMINATE" →
      (message_processing_callback room_id sender md storeErr).1
        = [Effect.broadcast room_id
            [("agent", agent_name_of sender), ("event", "TERMINATE"),
             ("message", agent_name_of sender ++ " has finished.")]])
    ∧ (¬ pyStrip s = "" → ¬ pyUpper (pyStrip s) = "TERMINATE" →
      (message_processing_callback room_id sender md storeErr).1
        = Effect.broadcast room_id [("agent", agent_name_of sender), ("message", s)]
          :: Effect.store (message_to_store room_id sender md)
          :: (if (storeErr (message_to_store room_id sender md)).isSome then
                [Effect.broadcast room_id
                  [("agent", "System"),
                   ("error", "Failed to store message from " ++ agent_name_of sender
                      ++ " to database.")]]
              else []))
    ∧ (pyStrip s = "" →
      (message_processing_callback room_id sender md storeErr).1 = []) := by
  refine ⟨?_, ?_, ?_⟩
  · intro ht
    have hs : ¬ s = "" := ne_empty_of_terminate s ht
    have hord : isOrdinaryContent (some s) = false := by
      simp [isOrdinaryContent, ht]
    have hterm : isTerminateContent (some s) = true := by
      simp [isTerminateContent, hs, ht]
    simp [message_processing_callback, hc, hord, hterm]
  · intro hstrip hterm
    have hs : ¬ s = "" := ne_empty_of_pyStrip_ne s hstrip
    have hord : isOrdinaryContent (some s) = true := by
      simp [isOrdinaryContent, hs, hstrip, hterm]
    cases hse : storeErr (message_to_store room_id sender md) with
    | none => simp [message_processing_callback, hc, hord, hse]
    | some err => simp [message_processing_callback, hc, hord, hse]
  · intro hstrip
    have hord : isOrdinaryContent (some s) = false := by
      simp [isOrdinaryContent, hstrip]
    have hterm : isTerminateContent (some s) = false := by
      have hup : pyUpper (pyStrip s) = "" := by rw [hstrip]; rfl
      simp [isTerminateContent, hup]
    simp [message_processing_callback, hc, hord, hterm]

/-- C1 witness: a lowercase, whitespace-padded sentinel is classified as a
termination event. -/
theorem C1_termination_classification_witness :
    (message_processing_callback "r" ⟨some "A", none⟩
        (.dict [("content", " terminate ")]) (fun _ => none)).1
      = [Effect.broadcast "r"
          [("agent", agent_name_of ⟨some "A", none⟩), ("event", "TERMINATE"),
           ("message", agent_name_of ⟨some "A", none⟩ ++ " has finished.")]] :=
  (C1_termination_classification "r" ⟨some "A", none⟩ (.dict [("content", " terminate ")])
      (fun _ => none) " terminate " rfl).1 (by decide)

/-- C3: when the transcript append of an ordinary message fails, the effect
trace is exactly: the room broadcast of the message (before the append was
attempted), the single append attempt (no retry), and the `System` error
notice; and the callback still completes normally, returning `False` to the
runtime. -/
theorem C3_store_error_recovery (room_id : String) (sender : Sender)
    (md : MessageDict) (storeErr : Msg → Option ErrDict) (s : String) (err : ErrDict)
    (hc : content_to_process md = some s)
    (hord : isOrdinaryContent (some s) = true)
    (herr : storeErr (message_to_store room_id sender md) = some err) :
    message_processing_callback room_id sender md storeErr
      = ([Effect.broadcast room_id [("agent", agent_name_of sender), ("message", s)],
          Effect.store (message_to_store room_id sender md),
          Effect.broadcast room_id
            [("agent", "System"),
             ("error", "Failed to store message from " ++ agent_name_of sender
                ++ " to database.")]],
         false) := by
  simp [message_processing_callback, hc, hord, herr]

/-- C3 witness: an ordinary message whose append fails. -/
theorem C3_store_error_recovery_witness :
    message_processing_callback "r" ⟨some "A", none⟩ (.dict [("content", "hello")])
        (fun _ => some ⟨"db down", some 500⟩)
      = ([Effect.broadcast "r" [("agent", agent_name_of ⟨some "A", none⟩), ("message", "hello")],
          Effect.store (message_to_store "r" ⟨some "A", none⟩ (.dict [("content", "hello")])),
          Effect.broadcast "r"
            [("agent", "System"),
             ("error", "Failed to store message from " ++ agent_name_of ⟨some "A", none⟩
                ++ " to database.")]],
         false) :=
  C3_store_error_recovery "r" ⟨some "A", none⟩ (.dict [("content", "hello")])
    (fun _ => some ⟨"db down", some 500⟩) "hello" ⟨"db down", some 500⟩
    rfl (by decide) rfl

/-!
## Claims about the session tail
-/

/-- The spec's wording of what qualifies as the session's reply, for
comparison with the code's scan: a history message attributable to the
responding (assistant) agent whose trimmed content is non-empty and is not
the sentinel. -/
def specQualifiesAsReply (m : HistMsg) : Bool :=
  m.role = "assistant" &&
    (match m.content with
     | some c => ¬ pyStrip c = "" && ¬ pyUpper (pyStrip c) = "TERMINATE"
     | none => false)

/-- C2 (counterexample): for an assistant message with content `" hi "` —
which qualifies (trimmed content non-empty, not the sentinel) — the captured
reply is the *stripped* string `"hi"`, not the message's content `" hi "`. -/
theorem C2_counterexample :
    (run_autogen_chat_tail "p" "r" "t" (.ok [⟨"assistant", some " hi "⟩])).1 = some "hi"
    ∧ (run_autogen_chat_tail "p" "r" "t" (.ok [⟨"assistant", some " hi "⟩])).1
        ≠ some " hi " := by decide

/-- C2 (amended): on a normal completion the session's return value is the
*trimmed* content of the first history message attributable to the assistant
whose trimmed content is non-empty and not the sentinel, and `none` when no
message qualifies; in particular the history `[hello, TERMINATE]` yields
`"hello"` and `["", TERMINATE]` yields `none`. -/
theorem C2_first_reply_extraction (hist : List HistMsg) (p r t : String) :
    (run_autogen_chat_tail p r t (.ok hist)).1
      = (hist.find? specQualifiesAsReply).map (fun m => pyStrip (m.content.getD ""))
    ∧ (run_autogen_chat_tail p r t
        (.ok [⟨"assistant", some "hello"⟩, ⟨"assistant", some "TERMINATE"⟩])).1 = some "hello"
    ∧ (run_autogen_chat_tail p r t
        (.ok [⟨"assistant", some ""⟩, ⟨"assistant", some "TERMINATE"⟩])).1 = none := by
  refine ⟨?_, rfl, rfl⟩
  show firstAssistantResponse hist = _
  induction hist with
  | nil => rfl
  | cons m rest ih =>
      by_cases hr : m.role = "assistant"
      · cases hcon : m.content with
        | none =>
            rw [List.find?_cons_of_neg rest (by simp [specQualifiesAsReply, hcon])]
            simp [firstAssistantResponse, hr, hcon, ih]
        | some c =>
            by_cases hstrip : pyStrip c = ""
            · have hce : (c = "") ∨ ¬ c = "" := em _
              rw [List.find?_cons_of_neg rest (by simp [specQualifiesAsReply, hcon, hstrip])]
              rcases hce with hce | hce
              · simp [firstAssistantResponse, hr, hcon, hce, ih]
              · simp [firstAssistantResponse, hr, hcon, hce, hstrip, ih]
            · have hc0 : ¬ c = "" := ne_empty_of_pyStrip_ne c hstrip
              by_cases hterm : pyUpper (pyStrip c) = "TERMINATE"
              · rw [List.find?_cons_of_neg rest (by simp [specQualifiesAsReply, hcon, hterm])]
                simp [firstAssistantResponse, hr, hcon, hc0, hstrip, hterm, ih]
              · rw [List.find?_cons_of_pos rest
                  (by simp [specQualifiesAsReply, hr, hcon, hstrip, hterm])]
                simp [firstAssistantResponse, hr, hcon, hc0, hstrip, hterm]
      · rw [List.find?_cons_of_neg rest (by simp [specQualifiesAsReply, hr])]
        simp [firstAssistantResponse, hr, ih]

/-- C5 (counterexample): in the FAILED case (`a_initiate_chat` raises) the
`except` handler returns `None` before the log-append block, so no
completion record is appended — not the "exactly one" the claim states. -/
theorem C5_counterexample :
    countLogAppends (run_autogen_chat_tail "p" "r" "t" (.raised "boom")).2 = 0
    ∧ countLogAppends (run_autogen_chat_tail "p" "r" "t" (.raised "boom")).2 ≠ 1 := by decide

/-- C5 (amended): exactly one completion record (timestamp, event
description, original prompt, captured reply or the fixed placeholder) is
appended to the room's log when the session ends normally; when the runtime
raises, the relay broadcasts a system error notice, persists an error-tagged
transcript record and returns a null reply, but appends no completion
record. -/
theorem C5_completion_logging (p r t : String) :
    (∀ hist, (run_autogen_chat_tail p r t (.ok hist)).2
        = [Effect.logAppend r
            [("timestamp", t),
             ("event", "Autogen chat session processing complete."),
             ("prompt", p),
             ("first_assistant_response_captured_for_log_file",
              pyStringOrElse (firstAssistantResponse hist)
                "No specific initial response captured / only TERMINATE.")]]
      ∧ countLogAppends (run_autogen_chat_tail p r t (.ok hist)).2 = 1)
    ∧ (∀ e, (run_autogen_chat_tail p r t (.raised e)).1 = none
        ∧ countLogAppends (run_autogen_chat_tail p r t (.raised e)).2 = 0
        ∧ (run_autogen_chat_tail p r t (.raised e)).2
            = [Effect.broadcast r
                [("agent", "System"), ("error", "Autogen Error: " ++ e),
                 ("message_type", "autogen_error")],
               Effect.store
                [("room_id", r), ("agent_name", "System"),
                 ("content", "Autogen Error: " ++ e), ("custom_type", "autogen_error")]]) :=
  ⟨fun hist => ⟨rfl, rfl⟩, fun e => ⟨rfl, rfl, rfl⟩⟩

/-!
## Claim about the transcript-store append
-/

/-- C9: `store_ai_message_in_supabase` validates `room_id`, `agent_name` and
`content` before contacting the store: if any is absent or falsy it returns
a status-400 error naming the first missing field and attempts no insert
(so an empty-string content is never persisted), and an insert is attempted
only when all three are present and non-empty. -/
theorem C9_store_validation (md : Msg) (ins : Msg → InsertOutcome) :
    ((fieldTruthy md "room_id" = false ∨ fieldTruthy md "agent_name" = false
        ∨ fieldTruthy md "content" = false) →
      (store_ai_message_in_supabase md ins).2 = []
      ∧ ∃ f, (store_ai_message_in_supabase md ins).1
          = (none, some ⟨"Missing required field for AI message: " ++ f, some 400⟩))
    ∧ (getValue? md "content" = some "" →
      (store_ai_message_in_supabase md ins).2 = [])
    ∧ ((store_ai_message_in_supabase md ins).2 ≠ [] →
      fieldTruthy md "room_id" = true ∧ fieldTruthy md "agent_name" = true
      ∧ fieldTruthy md "content" = true) := by
  cases h1 : fieldTruthy md "room_id" with
  | false =>
      have hres : store_ai_message_in_supabase md ins
          = ((none, some ⟨"Missing required field for AI message: " ++ "room_id",
              some 400⟩), []) := by
        simp [store_ai_message_in_supabase, List.find?, h1]
      refine ⟨fun _ => ?_, fun _ => ?_, fun hne => ?_⟩
      · exact ⟨by rw [hres], "room_id", by rw [hres]⟩
      · rw [hres]
      · exact absurd (by rw [hres]) hne
  | true =>
      cases h2 : fieldTruthy md "agent_name" with
      | false =>
          have hres : store_ai_message_in_supabase md ins
              = ((none, some ⟨"Missing required field for AI message: " ++ "agent_name",
                  some 400⟩), []) := by
            simp [store_ai_message_in_supabase, List.find?, h1, h2]
          refine ⟨fun _ => ?_, fun _ => ?_, fun hne => ?_⟩
          · exact ⟨by rw [hres], "agent_name", by rw [hres]⟩
          · rw [hres]
          · exact absurd (by rw [hres]) hne
      | true =>
          cases h3 : fieldTruthy md "content" with
          | false =>
              have hres : store_ai_message_in_supabase md ins
                  = ((none, some ⟨"Missing required field for AI message: " ++ "content",
                      some 400⟩), []) := by
                simp [store_ai_message_in_supabase, List.find?, h1, h2, h3]
              refine ⟨fun _ => ?_, fun _ => ?_, fun hne => ?_⟩
              · exact ⟨by rw [hres], "content", by rw [hres]⟩
              · rw [hres]
              · exact absurd (by rw [hres]) hne
          | true =>
              refine ⟨?_, ?_, fun _ => ⟨rfl, rfl, rfl⟩⟩
              · rintro (h | h | h) <;> simp_all
              · intro hc
                simp [fieldTruthy, hc] at h3

/-- C9 witness: a record whose `content` is the empty string is rejected
with the 400 validation error and never handed to the insert. -/
theorem C9_store_validation_witness :
    (store_ai_message_in_supabase [("room_id", "r"), ("agent_name", "A"), ("content", "")]
        (fun _ => .ok [])).2 = []
    ∧ ∃ f, (store_ai_message_in_supabase
          [("room_id", "r"), ("agent_name", "A"), ("content", "")] (fun _ => .ok [])).1
        = (none, some ⟨"Missing required field for AI message: " ++ f, some 400⟩) :=
  (C9_store_validation [("room_id", "r"), ("agent_name", "A"), ("content", "")]
      (fun _ => .ok [])).1 (Or.inr (Or.inr (by decide)))

end Hercules
